import Mathlib

set_option autoImplicit false

namespace Neuraldrift

/-!
Shallow embedding of the Neuraldrift binaural-beat generator:
the `AudioEngine` class (audio engine source file) and the `App`
coordinator (main application source file), together with the input
handlers of the `FrequencyDial` / `SessionTimer` components.
All machine numbers in the original are JS numbers used at integral
or small-rational values; they are embedded as `ℕ`, `ℤ` or `ℚ`.
-/

/-- Session phases, from `SessionPhase` in the components file:
`idle`, `work`, `break`. -/
inductive SessionPhase where
  | idle
  | work
  | «break»
deriving Repr, DecidableEq

namespace App

/-- Embedding of `beatHz = Math.abs(rightHz - leftHz)` from App. -/
def beatHz (leftHz rightHz : ℚ) : ℚ := |rightHz - leftHz|

/-- Embedding of `handleCarrierChange`: given the new carrier and the old
left/right frequencies, returns the new `(leftHz, rightHz)` pair, per
`newLeft = carrier; newRight = carrier + beatHz`. -/
def handleCarrierChange (carrier leftHz rightHz : ℚ) : ℚ × ℚ :=
  (carrier, carrier + beatHz leftHz rightHz)

end App

/-- Embedding of the JS idiom `Number(e.target.value) || d`: a non-numeric
input (`none`, i.e. NaN) and the value 0 are both falsy and replaced by
the fallback `d`; every other number passes through unchanged. -/
def numberOr (d : ℤ) : Option ℤ → ℤ
  | none => d
  | some v => if v = 0 then d else v

namespace FrequencyDial

/-- Bound applied by `FrequencyDial`'s pointer handler:
`Math.max(MIN_FREQ, Math.min(MAX_FREQ, newValue))` with bounds 20 and 1000. -/
def clampFrequency (v : ℤ) : ℤ := max 20 (min 1000 v)

/-- Embedding of `handleStepUp`: `Math.min(MAX_FREQ, value + step)` with step 1. -/
def handleStepUp (value : ℤ) : ℤ := min 1000 (value + 1)

/-- Embedding of `handleStepDown`: `Math.max(MIN_FREQ, value - step)` with step 1. -/
def handleStepDown (value : ℤ) : ℤ := max 20 (value - 1)

end FrequencyDial

namespace SessionTimer

/-- Value passed to `onWorkChange` by the work-minutes input:
`Number(e.target.value) || 1` (no clamping in the handler). -/
def workInputValue (i : Option ℤ) : ℤ := numberOr 1 i

/-- Value passed to `onBreakChange` by the break-minutes input:
`Math.max(0, Number(e.target.value) || 0)`. -/
def breakInputValue (i : Option ℤ) : ℤ := max 0 (numberOr 0 i)

/-- Value passed to `onCyclesChange` by the cycles input:
`Math.max(1, Number(e.target.value) || 1)`. -/
def cyclesInputValue (i : Option ℤ) : ℤ := max 1 (numberOr 1 i)

end SessionTimer

namespace App

/-- Embedding of the 100ms timer-tick callback (timer tick effect in App):
given the current phase and the previous `timeRemainingMs`, returns the new
`timeRemainingMs` together with the number of `playCountdownBeep()` calls
issued by this tick.  Mirrors: `if (prev <= 0) return prev;
next = Math.max(0, prev - 100);` and, during `break` only, the
`if/else if` chain firing a beep when the remaining time crosses from
above 3000/2000/1000 to at-or-below it. -/
def timerTick (phase : SessionPhase) (prev : ℕ) : ℕ × ℕ :=
  if prev = 0 then (prev, 0)
  else
    let next := prev - 100
    let beeps :=
      if phase = SessionPhase.«break» then
        if 3000 < prev ∧ next ≤ 3000 then 1
        else if 2000 < prev ∧ next ≤ 2000 then 1
        else if 1000 < prev ∧ next ≤ 1000 then 1
        else 0
      else 0
    (next, beeps)

/-- Total number of countdown beeps fired by running the break-phase tick
from `prev` ms all the way down to 0. -/
def breakBeeps (prev : ℕ) : ℕ :=
  if prev = 0 then 0
  else (timerTick SessionPhase.«break» prev).2 + breakBeeps (prev - 100)
termination_by prev
decreasing_by
  omega

end App

/-- Lifecycle state of the `AudioEngine` class: `context` existence (with a
counter of how many `new AudioContext()` constructions have happened),
the list of ids of live generator sets (the `nodes` record holds at most
one in the source; a list lets the at-most-one property be stated rather
than assumed), a fresh-id supply, and the `playing` flag. -/
structure EngineState where
  hasContext : Bool
  contextsCreated : ℕ
  graphs : List ℕ
  nextId : ℕ
  playing : Bool
deriving Repr, DecidableEq

/-- Engine state before any call: no context, no nodes, not playing. -/
def engineInitial : EngineState :=
  { hasContext := false, contextsCreated := 0, graphs := [], nextId := 0,
    playing := false }

namespace AudioEngine

/-- Embedding of `init()`: `if (this.context) return; this.context = new
AudioContext()`.  The counter records each construction. -/
def init (s : EngineState) : EngineState :=
  if s.hasContext then s
  else { s with hasContext := true, contextsCreated := s.contextsCreated + 1 }

/-- Embedding of `stop()`: `if (!this.nodes || !this.context) return;` then
stop/disconnect every node, `this.nodes = null; this.playing = false`. -/
def stop (s : EngineState) : EngineState :=
  if s.graphs = [] ∨ s.hasContext = false then s
  else { s with graphs := [], playing := false }

/-- Graph-construction tail of `start()`: create the oscillator graph
(one new live generator set), set `this.nodes` and `this.playing = true`. -/
def startBuild (s : EngineState) : EngineState :=
  { s with
    graphs := s.graphs ++ [s.nextId]
    nextId := s.nextId + 1
    playing := true }

/-- Micro-step states of `start(leftHz, rightHz, options)`, in source
order: after the `init()` call (and context-resume await), after the
`if (this.playing) this.stop();` implicit stop, and after graph
construction sets `playing`.  The successive states let the
at-most-one-graph property be checked at every instant inside the call. -/
def startStates (s : EngineState) : List EngineState :=
  let s1 := init s
  let s2 := if s1.playing then stop s1 else s1
  [s1, s2, startBuild s2]

/-- Final state of a completed `start` call. -/
def start (s : EngineState) : EngineState :=
  startBuild (if (init s).playing then stop (init s) else init s)

/-- Embedding of `fadeOutAndStop(durationSeconds)`: returns the final state
together with the delay (ms) after which the returned promise resolves.
`if (!this.nodes || !this.context)` the call sets `playing = false` and
resolves immediately; otherwise it ramps the master gain down and, after
`(durationSeconds + 0.05) * 1000` ms, tears the graph down. -/
def fadeOutAndStop (s : EngineState) (durationSeconds : ℚ) : EngineState × ℚ :=
  if s.graphs = [] ∨ s.hasContext = false then
    ({ s with playing := false }, 0)
  else
    ({ s with graphs := [], playing := false }, (durationSeconds + 5/100) * 1000)

end AudioEngine

/-- External lifecycle calls on the engine considered by the
at-most-one-graph property. -/
inductive EngineOp where
  | start
  | stop
  | fadeOutAndStop
deriving Repr, DecidableEq

/-- States passed through while one engine call executes (graph-changing
micro-steps; the fade window keeps the graph live, so the pre-teardown
state appears before the torn-down one). -/
def engineOpStates : EngineOp → EngineState → List EngineState
  | EngineOp.start, s => AudioEngine.startStates s
  | EngineOp.stop, s => [AudioEngine.stop s]
  | EngineOp.fadeOutAndStop, s => [s, (AudioEngine.fadeOutAndStop s 2).1]

/-- Final state of one engine call. -/
def engineExec : EngineOp → EngineState → EngineState
  | EngineOp.start, s => AudioEngine.start s
  | EngineOp.stop, s => AudioEngine.stop s
  | EngineOp.fadeOutAndStop, s => (AudioEngine.fadeOutAndStop s 2).1

/-- Every state passed through while a sequence of engine calls executes,
each call run to completion before the next (the coordinator always awaits
`start`/`fadeOutAndStop` before issuing the next call). -/
def engineTrace (s : EngineState) : List EngineOp → List EngineState
  | [] => []
  | op :: ops => engineOpStates op s ++ engineTrace (engineExec op s) ops

/-- Engine representation invariant: when not playing the graph is fully
torn down, at most one generator set is live, and a live graph implies the
context exists. -/
def GoodEngine (s : EngineState) : Prop :=
  (s.playing = false → s.graphs = []) ∧ s.graphs.length ≤ 1 ∧
    (s.graphs ≠ [] → s.hasContext = true)

instance (s : EngineState) : Decidable (GoodEngine s) := by
  unfold GoodEngine; infer_instance

/-- Oscillator pair of the live graph (`nodes.leftOsc.frequency.value` and
`nodes.rightOsc.frequency.value`), for the retune operations. -/
structure OscGraph where
  leftFreq : ℚ
  rightFreq : ℚ
deriving Repr, DecidableEq

/-- Reduced engine state for the retune operations: the context and the
optional `nodes` record with the two oscillators' current frequencies. -/
structure FreqState where
  hasContext : Bool
  nodes : Option OscGraph
deriving Repr, DecidableEq

/-- Linear `AudioParam` ramp scheduled by a retune:
`setValueAtTime(fromHz, now)` then
`linearRampToValueAtTime(toHz, now + durationSec)`. -/
structure FreqRamp where
  fromHz : ℚ
  toHz : ℚ
  durationSec : ℚ
deriving Repr, DecidableEq

/-- Instantaneous value of a scheduled linear ramp, `t` seconds after
`now`: the start value before the ramp, linear interpolation during it,
the target after it (Web Audio `linearRampToValueAtTime` semantics). -/
def FreqRamp.valueAt (r : FreqRamp) (t : ℚ) : ℚ :=
  if t ≤ 0 then r.fromHz
  else if t < r.durationSec then
    r.fromHz + (r.toHz - r.fromHz) * (t / r.durationSec)
  else r.toHz

namespace AudioEngine

/-- Embedding of `setLeftFrequency(value)`: no-op when
`!this.nodes?.leftOsc || !this.context`; otherwise cancels scheduled
values and ramps from the current instantaneous frequency to `value`
over 0.02 s.  Returns the new state and the scheduled ramp (if any). -/
def setLeftFrequency (s : FreqState) (value : ℚ) : FreqState × Option FreqRamp :=
  match s.nodes, s.hasContext with
  | some g, true =>
    ({ s with nodes := some { g with leftFreq := value } },
      some { fromHz := g.leftFreq, toHz := value, durationSec := 1/50 })
  | _, _ => (s, none)

/-- Embedding of `setRightFrequency(value)`, mirroring `setLeftFrequency`
on the right oscillator. -/
def setRightFrequency (s : FreqState) (value : ℚ) : FreqState × Option FreqRamp :=
  match s.nodes, s.hasContext with
  | some g, true =>
    ({ s with nodes := some { g with rightFreq := value } },
      some { fromHz := g.rightFreq, toHz := value, durationSec := 1/50 })
  | _, _ => (s, none)

end AudioEngine

/-- Session-coordination state of the `App` component: the pieces of React
state read and written by `handleToggle`, the timer-tick effect and the
phase-end transition effect. -/
structure AppState where
  phase : SessionPhase
  currentCycle : ℕ
  cycles : ℕ
  workMinutes : ℕ
  breakMinutes : ℕ
  timeRemainingMs : ℕ
  isPlaying : Bool
  showSessionComplete : Bool
  sessionTimerEnabled : Bool
deriving Repr, DecidableEq

/-- Initial App state from the `useState` initialisers:
`DEFAULT_WORK_MIN = 25`, `DEFAULT_BREAK_MIN = 5`, `DEFAULT_CYCLES = 2`,
phase `idle`, cycle 1, timer enabled, not playing. -/
def appInitial : AppState :=
  { phase := SessionPhase.idle, currentCycle := 1, cycles := 2,
    workMinutes := 25, breakMinutes := 5, timeRemainingMs := 0,
    isPlaying := false, showSessionComplete := false,
    sessionTimerEnabled := true }

/-- User and timer events driving the App state, each one run to
completion (awaited) before the next: the play/stop toggle, a 100ms
timer tick, the phase-end transition effect (enabled when the countdown
has reached 0), and the three session-configuration inputs (which the
component disables unless `sessionPhase === 'idle'`). -/
inductive AppAction where
  | toggle
  | tick
  | phaseEnd
  | setCycles (v : ℤ)
  | setWorkMinutes (v : ℤ)
  | setBreakMinutes (v : ℤ)
deriving Repr, DecidableEq

namespace App

/-- Embedding of `handleToggle`.  Stop branch (engine playing): await
`fadeOutAndStop`, set `isPlaying` false, phase `idle`, clear the interval
timers.  Start branch: start the engine and, when the session timer is
enabled with `cycles >= 1 && workMinutes >= 1`, enter `work` at cycle 1
with the full work duration; `showSessionComplete` is cleared. -/
def handleToggle (s : AppState) : AppState :=
  if s.isPlaying then
    { s with isPlaying := false, phase := SessionPhase.idle }
  else if s.sessionTimerEnabled ∧ 1 ≤ s.cycles ∧ 1 ≤ s.workMinutes then
    { s with
      isPlaying := true
      showSessionComplete := false
      phase := SessionPhase.work
      currentCycle := 1
      timeRemainingMs := s.workMinutes * 60 * 1000 }
  else
    { s with isPlaying := true, showSessionComplete := false }

/-- Embedding of the phase-end transition effect body (`run`), executed
when the phase is `work` or `break` and `timeRemainingMs` has reached 0,
run to completion with no interruption (the interrupted case is modelled
separately).  Work end: chime, await fade-out, `isPlaying` false; on the
last cycle go `idle` with the completion flag, else enter `break` with the
full break duration.  Break end: on the last cycle go `idle`; else
increment the cycle, enter `work` with the full work duration and restart
the engine (`isPlaying` true). -/
def phaseEnd (s : AppState) : AppState :=
  if s.timeRemainingMs ≠ 0 then s
  else if s.phase = SessionPhase.work then
    if s.cycles ≤ s.currentCycle then
      { s with
        isPlaying := false
        phase := SessionPhase.idle
        showSessionComplete := true }
    else
      { s with
        isPlaying := false
        phase := SessionPhase.«break»
        timeRemainingMs := s.breakMinutes * 60 * 1000 }
  else if s.phase = SessionPhase.«break» then
    if s.cycles ≤ s.currentCycle then
      { s with phase := SessionPhase.idle }
    else
      { s with
        currentCycle := s.currentCycle + 1
        phase := SessionPhase.work
        timeRemainingMs := s.workMinutes * 60 * 1000
        isPlaying := true }
  else s

/-- One App-level event.  `tick` applies the 100ms timer callback while
the phase is `work` or `break` (its beep side effect is tracked by
`timerTick`); the configuration setters apply their input coercions and
are ignored unless the phase is `idle`, mirroring
`disabled={sessionPhase !== 'idle'}` on the inputs.  Negative coerced
values cannot occur for cycles/break (lower-clamped); the work value is
stored as 0 if the coercion were negative (the embedding keeps ℕ state,
which only widens the reachable set for nonnegative inputs). -/
def step (s : AppState) : AppAction → AppState
  | AppAction.toggle => handleToggle s
  | AppAction.tick =>
    if s.phase = SessionPhase.work ∨ s.phase = SessionPhase.«break» then
      { s with timeRemainingMs := (timerTick s.phase s.timeRemainingMs).1 }
    else s
  | AppAction.phaseEnd => phaseEnd s
  | AppAction.setCycles v =>
    if s.phase = SessionPhase.idle then
      { s with cycles := (SessionTimer.cyclesInputValue (some v)).toNat }
    else s
  | AppAction.setWorkMinutes v =>
    if s.phase = SessionPhase.idle then
      { s with workMinutes := (SessionTimer.workInputValue (some v)).toNat }
    else s
  | AppAction.setBreakMinutes v =>
    if s.phase = SessionPhase.idle then
      { s with breakMinutes := (SessionTimer.breakInputValue (some v)).toNat }
    else s

/-- Run a list of App events in order. -/
def run (s : AppState) : List AppAction → AppState
  | [] => s
  | a :: rest => run (step s a) rest

end App

/-- Combined state for the break→work auto-restart race: the engine's
playing flag and live-graph flag, the App's `isPlaying` React state and
phase, the countdown, and the `cancelled` token captured by the in-flight
phase-end effect instance (the closure variable set by the effect's
cleanup). -/
structure RaceState where
  enginePlaying : Bool
  nodesLive : Bool
  uiPlaying : Bool
  phase : SessionPhase
  currentCycle : ℕ
  timeRemainingMs : ℕ
  cancelled : Bool
  timersActive : Bool
deriving Repr, DecidableEq

/-- State at the moment a break countdown (mid-session, cycle below the
total) reaches 0 and the phase-end effect fires: audio faded out at the
end of the previous work phase, React still ticking. -/
def raceStart : RaceState :=
  { enginePlaying := false, nodesLive := false, uiPlaying := false,
    phase := SessionPhase.«break», currentCycle := 1, timeRemainingMs := 0,
    cancelled := false, timersActive := true }

/-- Atomic segments of the two overlapping activities, split at their
event-loop suspension points.  The break→work `run` body splits at its one
`await engine.start(...)`: `restartBody` is everything before the await
(cycle increment, phase `work`, reset countdown, `engine.init`,
preferences, the whole `start` call through graph construction and
`engine.playing = true`), and `restartResume` is the continuation
`if (cancelled) return; setIsPlaying(true)`.  `cleanupCommit` is the React
cleanup of the in-flight effect instance, run when the effect's
dependencies (phase, cycle) change: it sets `cancelled = true`.  The
user's stop toggle splits at its `await engine.fadeOutAndStop()`:
`toggleFadeBegin` schedules the fade (no graph change yet) and
`toggleFadeDone` is the teardown timeout plus the continuation
(`setIsPlaying(false)`, phase `idle`, clear timers) together with the
cleanup that the phase change to `idle` triggers in the same flush. -/
inductive RaceStep where
  | restartBody
  | restartResume
  | cleanupCommit
  | toggleFadeBegin
  | toggleFadeDone
deriving Repr, DecidableEq

/-- Semantics of one atomic segment, read off the source of the phase-end
effect and `handleToggle`/`fadeOutAndStop`. -/
def raceStep (s : RaceState) : RaceStep → RaceState
  | RaceStep.restartBody =>
    { s with
      currentCycle := s.currentCycle + 1
      phase := SessionPhase.work
      timeRemainingMs := 25 * 60 * 1000
      nodesLive := true
      enginePlaying := true }
  | RaceStep.restartResume =>
    if s.cancelled then s else { s with uiPlaying := true }
  | RaceStep.cleanupCommit => { s with cancelled := true }
  | RaceStep.toggleFadeBegin => s
  | RaceStep.toggleFadeDone =>
    { s with
      nodesLive := false
      enginePlaying := false
      uiPlaying := false
      phase := SessionPhase.idle
      timersActive := false
      cancelled := true }

/-- Run the segments of a schedule in order. -/
def raceRun (s : RaceState) : List RaceStep → RaceState
  | [] => s
  | st :: rest => raceRun (raceStep s st) rest

/-- Schedules in which the user stops playback while the break→work
auto-restart is in flight.  Event-loop constraints fix part of the order:
`restartBody` runs first (the effect body is synchronous through the
engine's graph construction); `restartResume` is the microtask
continuation of the `await` and therefore runs before any later
user click or timeout macrotask; the React `cleanupCommit` for the
dependency change made inside `restartBody` is a scheduled macrotask and
can fall anywhere after `restartResume`, relative to the user's two
toggle segments, whose own order `toggleFadeBegin` before
`toggleFadeDone` is fixed.  The user's toggle takes its stop branch in
all three schedules because the engine is playing at that point. -/
def stopDuringRestartSchedules : List (List RaceStep) :=
  [ [RaceStep.restartBody, RaceStep.restartResume, RaceStep.cleanupCommit,
      RaceStep.toggleFadeBegin, RaceStep.toggleFadeDone],
    [RaceStep.restartBody, RaceStep.restartResume, RaceStep.toggleFadeBegin,
      RaceStep.cleanupCommit, RaceStep.toggleFadeDone],
    [RaceStep.restartBody, RaceStep.restartResume, RaceStep.toggleFadeBegin,
      RaceStep.toggleFadeDone, RaceStep.cleanupCommit] ]

/-- Display state for the session-complete flag: the flag itself, the
pending `setTimeout` delay (ms) that would clear it, and the session
phase. -/
structure CompleteState where
  phase : SessionPhase
  showSessionComplete : Bool
  completeTimeout : Option ℕ
deriving Repr, DecidableEq

/-- Tail of the phase-end effect when the last work phase ends
(`currentCycle >= cycles`): phase `idle`, `showSessionComplete = true`,
and `sessionCompleteTimeoutRef` set to a 4000ms timeout that will clear
the flag. -/
def finishLastWork (s : CompleteState) : CompleteState :=
  { s with
    phase := SessionPhase.idle
    showSessionComplete := true
    completeTimeout := some 4000 }

/-- Cleanup function of the phase-end effect: clears
`sessionCompleteTimeoutRef` if set.  React runs this cleanup whenever the
effect's dependencies change — in particular at the re-render caused by
`setSessionPhase('idle')` inside `finishLastWork` itself, long before
4000ms can elapse. -/
def phaseEndEffectCleanup (s : CompleteState) : CompleteState :=
  { s with completeTimeout := none }

/-- State of the flag once `ms` milliseconds have elapsed with no further
user action: a still-pending timeout fires at its delay and clears the
flag; a cleared timeout never fires. -/
def elapseComplete (s : CompleteState) (ms : ℕ) : CompleteState :=
  match s.completeTimeout with
  | some d =>
    if d ≤ ms then
      { s with showSessionComplete := false, completeTimeout := none }
    else s
  | none => s

/-!
Theorems.  Helper lemmas come first, then one theorem per claim (with
witness or counterexample theorems where required).
-/

/-- First component of the timer tick: the countdown decrements by 100ms,
floored at zero. -/
theorem timerTick_fst (p : SessionPhase) (t : ℕ) :
    (App.timerTick p t).1 = t - 100 := by
  unfold App.timerTick
  split_ifs <;> simp_all

/-- Second component of the timer tick: each tick fires at most one beep. -/
theorem timerTick_snd_le_one (p : SessionPhase) (t : ℕ) :
    (App.timerTick p t).2 ≤ 1 := by
  unfold App.timerTick
  split_ifs <;> simp
  all_goals split_ifs <;> simp

/-- Closed form for the break-phase beep count: one beep per threshold
strictly below the starting value. -/
theorem breakBeeps_eq (s : ℕ) :
    App.breakBeeps s =
      (if 3000 < s then 1 else 0) + (if 2000 < s then 1 else 0) +
        (if 1000 < s then 1 else 0) := by
  induction s using Nat.strong_induction_on with
  | _ s ih =>
    rw [App.breakBeeps]
    by_cases h : s = 0
    · simp [h]
    · rw [ih (s - 100) (by omega)]
      simp only [App.timerTick, h, if_neg, if_false]
      split_ifs <;> omega

/-- Claim C4: a break countdown started above 3000ms and ticked by 100ms
down to 0 fires `playCountdownBeep` exactly three times, and a tick fires
iff the remaining time crosses from strictly above a threshold to
at-or-below it (never by equality with the threshold). -/
theorem break_countdown_beeps_exactly_three (s : ℕ) (hs : 3000 < s) :
    App.breakBeeps s = 3 ∧
      (∀ prev : ℕ, prev ≠ 0 →
        ((App.timerTick SessionPhase.«break» prev).2 = 1 ↔
          (3000 < prev ∧ prev - 100 ≤ 3000) ∨
            (2000 < prev ∧ prev - 100 ≤ 2000) ∨
            (1000 < prev ∧ prev - 100 ≤ 1000)) ∧
        (App.timerTick SessionPhase.«break» prev).2 ≤ 1) := by
  constructor
  · rw [breakBeeps_eq]
    split_ifs <;> omega
  · intro prev hp
    constructor
    · unfold App.timerTick
      rw [if_neg hp]
      split_ifs <;> simp_all
      all_goals omega
    · exact timerTick_snd_le_one _ _

/-- Witness for C4 at the tick-misaligned start 3050ms. -/
theorem break_countdown_beeps_exactly_three_witness :
    3000 < 3050 ∧ App.breakBeeps 3050 = 3 :=
  ⟨by norm_num, (break_countdown_beeps_exactly_three 3050 (by norm_num)).1⟩

/-- Claim C10: `handleCarrierChange` sets the left tone to the carrier and
the right tone to carrier plus the old beat, so the beat magnitude is
preserved; if the right tone was below the left, the orientation flips. -/
theorem carrier_change_preserves_beat (c l r : ℚ) :
    (App.handleCarrierChange c l r).1 = c ∧
      (App.handleCarrierChange c l r).2 = c + |r - l| ∧
      App.beatHz (App.handleCarrierChange c l r).1
          (App.handleCarrierChange c l r).2 = App.beatHz l r ∧
      (r < l →
        (App.handleCarrierChange c l r).1 < (App.handleCarrierChange c l r).2) := by
  refine ⟨rfl, rfl, ?_, ?_⟩
  · show |c + |r - l| - c| = |r - l|
    have h : c + |r - l| - c = |r - l| := by ring
    rw [h, abs_abs]
  · intro h
    show c < c + |r - l|
    have : 0 < |r - l| := abs_pos.mpr (sub_ne_zero_of_ne (ne_of_lt h))
    linarith

/-- Witness for C10 at carrier 300 with the right tone (190) below the
left (200): the orientation flips. -/
theorem carrier_change_preserves_beat_witness :
    (190 : ℚ) < 200 ∧
      (App.handleCarrierChange 300 200 190).1 <
        (App.handleCarrierChange 300 200 190).2 :=
  ⟨by norm_num,
    (carrier_change_preserves_beat 300 200 190).2.2.2 (by norm_num)⟩

/-- Counterexample for C8: the duration and cycle inputs pass out-of-range
values through unclamped — 500 work minutes (documented max 120), -5 work
minutes (documented min 1), 100 break minutes (documented max 60) and 50
cycles (documented max 20) are all accepted verbatim. -/
theorem session_inputs_unclamped_counterexample :
    SessionTimer.workInputValue (some 500) = 500 ∧ ¬(500 : ℤ) ≤ 120 ∧
      SessionTimer.workInputValue (some (-5)) = -5 ∧ ¬(1 : ℤ) ≤ -5 ∧
      SessionTimer.breakInputValue (some 100) = 100 ∧ ¬(100 : ℤ) ≤ 60 ∧
      SessionTimer.cyclesInputValue (some 50) = 50 ∧ ¬(50 : ℤ) ≤ 20 := by
  decide

/-- Claim C8 as amended: the tone-frequency handlers clamp into [20,1000];
the break input is clamped below at 0 and the cycles input below at 1;
the work input only coerces empty/zero input to 1.  Upper bounds on
minutes and cycles (and the lower work bound) are left to the inputs'
presentation attributes. -/
theorem config_bounds_amended :
    (∀ v : ℤ, 20 ≤ FrequencyDial.clampFrequency v ∧
      FrequencyDial.clampFrequency v ≤ 1000) ∧
      (∀ v : ℤ, FrequencyDial.handleStepUp v ≤ 1000) ∧
      (∀ v : ℤ, 20 ≤ FrequencyDial.handleStepDown v) ∧
      (∀ i : Option ℤ, 0 ≤ SessionTimer.breakInputValue i) ∧
      (∀ i : Option ℤ, 1 ≤ SessionTimer.cyclesInputValue i) ∧
      SessionTimer.workInputValue none = 1 ∧
      SessionTimer.workInputValue (some 0) = 1 := by
  refine ⟨?_, ?_, ?_, ?_, ?_, rfl, rfl⟩
  · intro v
    unfold FrequencyDial.clampFrequency
    omega
  · intro v
    unfold FrequencyDial.handleStepUp
    omega
  · intro v
    unfold FrequencyDial.handleStepDown
    omega
  · intro i
    cases i with
    | none => decide
    | some v =>
      simp only [SessionTimer.breakInputValue]
      exact le_max_left 0 _
  · intro i
    cases i with
    | none => decide
    | some v =>
      simp only [SessionTimer.cyclesInputValue]
      exact le_max_left 1 _

/-- Claim C7 (code): after the last work phase ends, the React cleanup of
the phase-end effect — which necessarily runs at the re-render caused by
the transition's own `setSessionPhase('idle')` — clears the freshly
created 4-second timeout, so `showSessionComplete` stays true for every
later elapsed time; without that cleanup the 4000ms timeout would have
cleared the flag, which is the behavior the claim describes. -/
theorem session_complete_flag_never_autoclears :
    (∀ (s0 : CompleteState) (ms : ℕ),
      (elapseComplete (phaseEndEffectCleanup (finishLastWork s0)) ms).showSessionComplete = true) ∧
      (∀ s0 : CompleteState,
        (elapseComplete (finishLastWork s0) 4000).showSessionComplete = false) := by
  constructor
  · intro s0 ms
    simp [elapseComplete, phaseEndEffectCleanup, finishLastWork]
  · intro s0
    simp [elapseComplete, finishLastWork]

/-- Claim C9: lifecycle operations are idempotent no-ops in their target
state — a second `init()` creates no second context; `stop()` on a
stopped engine (graph already torn down) changes nothing and leaves
`isPlaying()` false; `fadeOutAndStop()` when not playing resolves
immediately (zero delay) with `isPlaying()` false. -/
theorem engine_lifecycle_idempotent :
    (∀ s : EngineState, AudioEngine.init (AudioEngine.init s) = AudioEngine.init s) ∧
      (∀ s : EngineState, s.hasContext = false →
        (AudioEngine.init (AudioEngine.init s)).contextsCreated = s.contextsCreated + 1) ∧
      (∀ s : EngineState, GoodEngine s → s.playing = false →
        AudioEngine.stop s = s ∧ (AudioEngine.stop s).playing = false) ∧
      (∀ (s : EngineState) (d : ℚ), GoodEngine s → s.playing = false →
        (AudioEngine.fadeOutAndStop s d).1.playing = false ∧
          (AudioEngine.fadeOutAndStop s d).2 = 0) := by
  refine ⟨?_, ?_, ?_, ?_⟩
  · intro s
    unfold AudioEngine.init
    split_ifs <;> simp_all
  · intro s h
    unfold AudioEngine.init
    split_ifs <;> simp_all
  · intro s hg hp
    have hempty : s.graphs = [] := hg.1 hp
    unfold AudioEngine.stop
    rw [if_pos (Or.inl hempty)]
    exact ⟨rfl, hp⟩
  · intro s d hg hp
    have hempty : s.graphs = [] := hg.1 hp
    unfold AudioEngine.fadeOutAndStop
    rw [if_pos (Or.inl hempty)]
    exact ⟨rfl, rfl⟩

/-- Witness for C9 at the initial engine state. -/
theorem engine_lifecycle_idempotent_witness :
    engineInitial.hasContext = false ∧ GoodEngine engineInitial ∧
      engineInitial.playing = false ∧
      (AudioEngine.init (AudioEngine.init engineInitial)).contextsCreated = 1 ∧
      AudioEngine.stop engineInitial = engineInitial ∧
      (AudioEngine.fadeOutAndStop engineInitial 2).2 = 0 :=
  ⟨rfl, by decide, rfl,
    engine_lifecycle_idempotent.2.1 engineInitial rfl,
    (engine_lifecycle_idempotent.2.2.1 engineInitial (by decide) rfl).1,
    (engine_lifecycle_idempotent.2.2.2 engineInitial 2 (by decide) rfl).2⟩

/-- The context exists after any `init()` call. -/
theorem init_hasContext (s : EngineState) :
    (AudioEngine.init s).hasContext = true := by
  unfold AudioEngine.init
  split_ifs with h
  · exact h
  · rfl

/-- Fields untouched by `init()`. -/
theorem init_fields (s : EngineState) :
    (AudioEngine.init s).graphs = s.graphs ∧
      (AudioEngine.init s).playing = s.playing := by
  unfold AudioEngine.init
  split_ifs <;> exact ⟨rfl, rfl⟩

/-- After the implicit-stop step inside `start()`, no graph is live. -/
theorem stop_init_graphs (s : EngineState) :
    (AudioEngine.stop (AudioEngine.init s)).graphs = [] := by
  unfold AudioEngine.stop
  split_ifs with h
  · rcases h with h | h
    · exact h
    · rw [init_hasContext s] at h
      cases h
  · rfl

/-- The invariant `GoodEngine` is preserved by `init()`. -/
theorem goodEngine_init (s : EngineState) (h : GoodEngine s) :
    GoodEngine (AudioEngine.init s) := by
  obtain ⟨h1, h2, _⟩ := h
  refine ⟨?_, ?_, ?_⟩
  · rw [(init_fields s).1, (init_fields s).2]
    exact h1
  · rw [(init_fields s).1]
    exact h2
  · intro _
    exact init_hasContext s

/-- Every micro-state inside one engine call keeps at most one live graph,
and the invariant holds again at the call's end. -/
theorem engineOp_safe (op : EngineOp) (s : EngineState) (h : GoodEngine s) :
    (∀ t ∈ engineOpStates op s, t.graphs.length ≤ 1) ∧
      GoodEngine (engineExec op s) := by
  obtain ⟨h1, h2, h3⟩ := h
  cases op with
  | start =>
    have hi := goodEngine_init s ⟨h1, h2, h3⟩
    obtain ⟨hi1, hi2, _⟩ := hi
    have hs2 : (if (AudioEngine.init s).playing then
        AudioEngine.stop (AudioEngine.init s) else AudioEngine.init s).graphs = [] := by
      split_ifs with hp
      · exact stop_init_graphs s
      · exact hi1 (by simp [hp])
    constructor
    · intro t ht
      simp only [engineOpStates, AudioEngine.startStates, List.mem_cons,
        List.mem_singleton, List.not_mem_nil, or_false] at ht
      rcases ht with rfl | rfl | rfl
      · exact hi2
      · split_ifs with hp
        · rw [stop_init_graphs s]
          simp
        · rw [hi1 (by simp [hp])]
          simp
      · simp [AudioEngine.startBuild, hs2]
    · refine ⟨?_, ?_, ?_⟩
      · intro hfalse
        simp [engineExec, AudioEngine.start, AudioEngine.startBuild] at hfalse
      · simp [engineExec, AudioEngine.start, AudioEngine.startBuild, hs2]
      · intro _
        simp only [engineExec, AudioEngine.start, AudioEngine.startBuild]
        split_ifs with hp
        · unfold AudioEngine.stop
          split_ifs
          · exact init_hasContext s
          · exact init_hasContext s
        · exact init_hasContext s
  | stop =>
    constructor
    · intro t ht
      simp only [engineOpStates, List.mem_singleton] at ht
      subst ht
      unfold AudioEngine.stop
      split_ifs
      · exact h2
      · simp
    · simp only [engineExec]
      unfold AudioEngine.stop
      split_ifs with hc
      · exact ⟨h1, h2, h3⟩
      · push_neg at hc
        exact ⟨fun _ => rfl, by simp, fun hne => absurd rfl hne⟩
  | fadeOutAndStop =>
    constructor
    · intro t ht
      simp only [engineOpStates, List.mem_cons, List.mem_singleton,
        List.not_mem_nil, or_false] at ht
      rcases ht with rfl | rfl
      · exact h2
      · unfold AudioEngine.fadeOutAndStop
        split_ifs with hc
        · exact h2
        · simp
    · simp only [engineExec]
      unfold AudioEngine.fadeOutAndStop
      split_ifs with hc
      · rcases hc with hc | hc
        · exact ⟨fun _ => hc, h2, h3⟩
        · refine ⟨fun _ => ?_, h2, fun hne => absurd (h3 hne) (by simp [hc])⟩
          by_contra hne
          exact absurd (h3 hne) (by simp [hc])
      · push_neg at hc
        exact ⟨fun _ => rfl, by simp, fun hne => absurd rfl hne⟩

/-- Every state reached while a call sequence executes keeps at most one
live graph, starting from any invariant-satisfying state. -/
theorem engineTrace_bounded (ops : List EngineOp) :
    ∀ s : EngineState, GoodEngine s →
      ∀ t ∈ engineTrace s ops, t.graphs.length ≤ 1 := by
  induction ops with
  | nil =>
    intro s _ t ht
    simp [engineTrace] at ht
  | cons op rest ih =>
    intro s hs t ht
    rw [engineTrace] at ht
    rcases List.mem_append.mp ht with hmem | hmem
    · exact (engineOp_safe op s hs).1 t hmem
    · exact ih (engineExec op s) (engineOp_safe op s hs).2 t hmem

/-- Claim C2: along every finite sequence of `start`/`fadeOutAndStop`/
`stop` calls from the fresh engine, at most one live generator set exists
at every instant; in particular `start` while playing passes through the
implicit-stop micro-state, whose graph list is already empty before the
new graph is constructed. -/
theorem engine_at_most_one_live_graph (ops : List EngineOp) (s : EngineState)
    (hs : GoodEngine s) :
    (∀ t ∈ engineTrace s ops, t.graphs.length ≤ 1) ∧
      (s.playing = true →
        (AudioEngine.startStates s).get? 1 =
            some (AudioEngine.stop (AudioEngine.init s)) ∧
          (AudioEngine.stop (AudioEngine.init s)).graphs = []) := by
  constructor
  · exact engineTrace_bounded ops s hs
  · intro hp
    constructor
    · simp [AudioEngine.startStates, (init_fields s).2, hp]
    · exact stop_init_graphs s

/-- Witness for C2: two consecutive `start` calls from the fresh engine,
checked at the second call's post-implicit-stop micro-state, with the
second start issued while playing. -/
theorem engine_at_most_one_live_graph_witness :
    GoodEngine engineInitial ∧
      (engineExec EngineOp.start engineInitial).playing = true ∧
      (∀ t ∈ engineTrace engineInitial [EngineOp.start, EngineOp.start],
        t.graphs.length ≤ 1) :=
  ⟨by decide, by decide,
    (engine_at_most_one_live_graph [EngineOp.start, EngineOp.start]
      engineInitial (by decide)).1⟩

/-- A linear ramp of positive duration stays between its endpoints at
every instant. -/
theorem rampValueAt_bounds (a b d t : ℚ) (hd : 0 < d) :
    min a b ≤ FreqRamp.valueAt { fromHz := a, toHz := b, durationSec := d } t ∧
      FreqRamp.valueAt { fromHz := a, toHz := b, durationSec := d } t ≤ max a b := by
  unfold FreqRamp.valueAt
  split_ifs with h1 h2
  · exact ⟨min_le_left a b, le_max_left a b⟩
  · have ht0 : 0 ≤ t / d := div_nonneg (le_of_lt (not_le.mp h1)) hd.le
    have ht1 : t / d ≤ 1 := (div_le_one hd).mpr (le_of_lt h2)
    rcases le_total a b with hab | hab
    · rw [min_eq_left hab, max_eq_right hab]
      constructor <;> nlinarith
    · rw [min_eq_right hab, max_eq_left hab]
      constructor <;> nlinarith
  · exact ⟨min_le_right a b, le_max_right a b⟩

/-- A ramp starts at its scheduled start value and holds its target from
the end of its duration on. -/
theorem rampValueAt_endpoints (a b d : ℚ) :
    FreqRamp.valueAt { fromHz := a, toHz := b, durationSec := d } 0 = a ∧
      ∀ t : ℚ, d ≤ t → 0 < d →
        FreqRamp.valueAt { fromHz := a, toHz := b, durationSec := d } t = b := by
  constructor
  · unfold FreqRamp.valueAt
    rw [if_pos le_rfl]
  · intro t hdt hd
    unfold FreqRamp.valueAt
    rw [if_neg (by simp only [not_le]; linarith), if_neg (by simp only [not_lt]; linarith)]

/-- Claim C6: while playing, `setLeftFrequency`/`setRightFrequency`
reschedule the oscillator with a 0.02s linear ramp from its current
instantaneous value to the new value — never a step — so the
instantaneous frequency stays within the closed interval spanned by the
old and new values at every instant; when not playing the call is a
no-op. -/
theorem set_frequency_smooth_ramp :
    (∀ (s : FreqState) (g : OscGraph) (v : ℚ), s.nodes = some g →
      s.hasContext = true → 20 ≤ g.leftFreq → g.leftFreq ≤ 1000 →
      (AudioEngine.setLeftFrequency s v).2 =
          some { fromHz := g.leftFreq, toHz := v, durationSec := 1/50 } ∧
        (∀ t : ℚ,
          min g.leftFreq v ≤
              FreqRamp.valueAt
                { fromHz := g.leftFreq, toHz := v, durationSec := 1/50 } t ∧
            FreqRamp.valueAt
                { fromHz := g.leftFreq, toHz := v, durationSec := 1/50 } t ≤
              max g.leftFreq v) ∧
        FreqRamp.valueAt
            { fromHz := g.leftFreq, toHz := v, durationSec := 1/50 } 0 =
          g.leftFreq ∧
        (∀ t : ℚ, 1/50 ≤ t →
          FreqRamp.valueAt
              { fromHz := g.leftFreq, toHz := v, durationSec := 1/50 } t = v)) ∧
      (∀ (s : FreqState) (v : ℚ), s.nodes = none →
        AudioEngine.setLeftFrequency s v = (s, none) ∧
          AudioEngine.setRightFrequency s v = (s, none)) ∧
      (∀ (s : FreqState) (g : OscGraph) (v : ℚ), s.nodes = some g →
        s.hasContext = true →
        (AudioEngine.setRightFrequency s v).2 =
            some { fromHz := g.rightFreq, toHz := v, durationSec := 1/50 } ∧
          (∀ t : ℚ,
            min g.rightFreq v ≤
                FreqRamp.valueAt
                  { fromHz := g.rightFreq, toHz := v, durationSec := 1/50 } t ∧
              FreqRamp.valueAt
                  { fromHz := g.rightFreq, toHz := v, durationSec := 1/50 } t ≤
                max g.rightFreq v)) := by
  refine ⟨?_, ?_, ?_⟩
  · intro s g v hn hc _ _
    refine ⟨?_, ?_, (rampValueAt_endpoints g.leftFreq v (1/50)).1, ?_⟩
    · unfold AudioEngine.setLeftFrequency
      rw [hn, hc]
    · intro t
      exact rampValueAt_bounds g.leftFreq v (1/50) t (by norm_num)
    · intro t ht
      exact (rampValueAt_endpoints g.leftFreq v (1/50)).2 t ht (by norm_num)
  · intro s v hn
    constructor
    · unfold AudioEngine.setLeftFrequency
      rw [hn]
    · unfold AudioEngine.setRightFrequency
      rw [hn]
  · intro s g v hn hc
    constructor
    · unfold AudioEngine.setRightFrequency
      rw [hn, hc]
    · intro t
      exact rampValueAt_bounds g.rightFreq v (1/50) t (by norm_num)

/-- Witness for C6: retuning the left oscillator from 200Hz to 300Hz
while playing schedules the 0.02s ramp, whose value stays in [200,300];
when the graph is down the call is a no-op. -/
theorem set_frequency_smooth_ramp_witness :
    (AudioEngine.setLeftFrequency
        { hasContext := true, nodes := some { leftFreq := 200, rightFreq := 210 } }
        300).2 =
        some { fromHz := 200, toHz := 300, durationSec := 1/50 } ∧
      min (200 : ℚ) 300 ≤
        FreqRamp.valueAt { fromHz := 200, toHz := 300, durationSec := 1/50 }
          (1/100) ∧
      AudioEngine.setLeftFrequency { hasContext := true, nodes := none } 300 =
        ({ hasContext := true, nodes := none }, none) :=
  ⟨(set_frequency_smooth_ramp.1
      { hasContext := true, nodes := some { leftFreq := 200, rightFreq := 210 } }
      { leftFreq := 200, rightFreq := 210 } 300 rfl rfl (by norm_num)
      (by norm_num)).1,
    ((set_frequency_smooth_ramp.1
      { hasContext := true, nodes := some { leftFreq := 200, rightFreq := 210 } }
      { leftFreq := 200, rightFreq := 210 } 300 rfl rfl (by norm_num)
      (by norm_num)).2.1 (1/100)).1,
    (set_frequency_smooth_ramp.2.1 { hasContext := true, nodes := none } 300
      rfl).1⟩

/-- Running events splits across list append. -/
theorem run_append (l1 l2 : List AppAction) :
    ∀ s : AppState, App.run s (l1 ++ l2) = App.run (App.run s l1) l2 := by
  induction l1 with
  | nil => intro s; rfl
  | cons a rest ih =>
    intro s
    rw [List.cons_append, App.run, App.run, ih]

/-- Ticking `n` times while in `work` or `break` lowers the countdown by
`100 * n` (floored at 0) and changes nothing else. -/
theorem run_replicate_tick (n : ℕ) :
    ∀ s : AppState,
      s.phase = SessionPhase.work ∨ s.phase = SessionPhase.«break» →
      App.run s (List.replicate n AppAction.tick) =
        { s with timeRemainingMs := s.timeRemainingMs - 100 * n } := by
  induction n with
  | zero =>
    intro s _
    simp [App.run]
  | succ n ih =>
    intro s h
    obtain ⟨ph, cc, cy, wm, bm, t, ip, sc, ste⟩ := s
    rw [List.replicate_succ, App.run]
    have hstep : App.step (AppState.mk ph cc cy wm bm t ip sc ste)
        AppAction.tick = AppState.mk ph cc cy wm bm (t - 100) ip sc ste := by
      simp only [App.step]
      rw [if_pos h, timerTick_fst]
    rw [hstep, ih _ (by simpa using h)]
    show AppState.mk ph cc cy wm bm (t - 100 - 100 * n) ip sc ste =
      AppState.mk ph cc cy wm bm (t - 100 * (n + 1)) ip sc ste
    simp only [AppState.mk.injEq, and_true, true_and]
    omega

/-- Claim C3: with the default configuration (25 work minutes, 5 break
minutes, 2 cycles, timer enabled), starting a session and letting every
countdown run to 0 produces work(1500000) → break(300000) →
work(1500000) → idle(complete), with `currentCycle` 1, 1, 2, 2 at the
respective phase entries; and out of `work` on the last cycle the
transition goes to `idle` with the completion flag, never to `break`. -/
theorem session_arithmetic_25_5_2 :
    (App.run appInitial [AppAction.toggle]).phase = SessionPhase.work ∧
      (App.run appInitial [AppAction.toggle]).timeRemainingMs = 1500000 ∧
      (App.run appInitial [AppAction.toggle]).currentCycle = 1 ∧
      (App.run appInitial
          ([AppAction.toggle] ++ List.replicate 15000 AppAction.tick ++
            [AppAction.phaseEnd])).phase = SessionPhase.«break» ∧
      (App.run appInitial
          ([AppAction.toggle] ++ List.replicate 15000 AppAction.tick ++
            [AppAction.phaseEnd])).timeRemainingMs = 300000 ∧
      (App.run appInitial
          ([AppAction.toggle] ++ List.replicate 15000 AppAction.tick ++
            [AppAction.phaseEnd])).currentCycle = 1 ∧
      (App.run appInitial
          ([AppAction.toggle] ++ List.replicate 15000 AppAction.tick ++
            [AppAction.phaseEnd] ++ List.replicate 3000 AppAction.tick ++
            [AppAction.phaseEnd])).phase = SessionPhase.work ∧
      (App.run appInitial
          ([AppAction.toggle] ++ List.replicate 15000 AppAction.tick ++
            [AppAction.phaseEnd] ++ List.replicate 3000 AppAction.tick ++
            [AppAction.phaseEnd])).timeRemainingMs = 1500000 ∧
      (App.run appInitial
          ([AppAction.toggle] ++ List.replicate 15000 AppAction.tick ++
            [AppAction.phaseEnd] ++ List.replicate 3000 AppAction.tick ++
            [AppAction.phaseEnd])).currentCycle = 2 ∧
      (App.run appInitial
          ([AppAction.toggle] ++ List.replicate 15000 AppAction.tick ++
            [AppAction.phaseEnd] ++ List.replicate 3000 AppAction.tick ++
            [AppAction.phaseEnd] ++ List.replicate 15000 AppAction.tick ++
            [AppAction.phaseEnd])).phase = SessionPhase.idle ∧
      (App.run appInitial
          ([AppAction.toggle] ++ List.replicate 15000 AppAction.tick ++
            [AppAction.phaseEnd] ++ List.replicate 3000 AppAction.tick ++
            [AppAction.phaseEnd] ++ List.replicate 15000 AppAction.tick ++
            [AppAction.phaseEnd])).showSessionComplete = true ∧
      (App.run appInitial
          ([AppAction.toggle] ++ List.replicate 15000 AppAction.tick ++
            [AppAction.phaseEnd] ++ List.replicate 3000 AppAction.tick ++
            [AppAction.phaseEnd] ++ List.replicate 15000 AppAction.tick ++
            [AppAction.phaseEnd])).currentCycle = 2 ∧
      (∀ s : AppState, s.phase = SessionPhase.work → s.timeRemainingMs = 0 →
        s.cycles ≤ s.currentCycle →
        (App.phaseEnd s).phase = SessionPhase.idle ∧
          (App.phaseEnd s).phase ≠ SessionPhase.«break» ∧
          (App.phaseEnd s).showSessionComplete = true) := by
  have e0 : App.run appInitial [AppAction.toggle] =
      { phase := SessionPhase.work, currentCycle := 1, cycles := 2,
        workMinutes := 25, breakMinutes := 5, timeRemainingMs := 1500000,
        isPlaying := true, showSessionComplete := false,
        sessionTimerEnabled := true } := by decide
  have e1 : App.run appInitial
      ([AppAction.toggle] ++ List.replicate 15000 AppAction.tick ++
        [AppAction.phaseEnd]) =
      { phase := SessionPhase.«break», currentCycle := 1, cycles := 2,
        workMinutes := 25, breakMinutes := 5, timeRemainingMs := 300000,
        isPlaying := false, showSessionComplete := false,
        sessionTimerEnabled := true } := by
    rw [run_append, run_append, e0, run_replicate_tick 15000 _ (Or.inl rfl)]
    decide
  have e2 : App.run appInitial
      ([AppAction.toggle] ++ List.replicate 15000 AppAction.tick ++
        [AppAction.phaseEnd] ++ List.replicate 3000 AppAction.tick ++
        [AppAction.phaseEnd]) =
      { phase := SessionPhase.work, currentCycle := 2, cycles := 2,
        workMinutes := 25, breakMinutes := 5, timeRemainingMs := 1500000,
        isPlaying := true, showSessionComplete := false,
        sessionTimerEnabled := true } := by
    rw [run_append, run_append, e1, run_replicate_tick 3000 _ (Or.inr rfl)]
    decide
  have e3 : App.run appInitial
      ([AppAction.toggle] ++ List.replicate 15000 AppAction.tick ++
        [AppAction.phaseEnd] ++ List.replicate 3000 AppAction.tick ++
        [AppAction.phaseEnd] ++ List.replicate 15000 AppAction.tick ++
        [AppAction.phaseEnd]) =
      { phase := SessionPhase.idle, currentCycle := 2, cycles := 2,
        workMinutes := 25, breakMinutes := 5, timeRemainingMs := 0,
        isPlaying := false, showSessionComplete := true,
        sessionTimerEnabled := true } := by
    rw [run_append, run_append, e2, run_replicate_tick 15000 _ (Or.inl rfl)]
    decide
  refine ⟨?_, ?_, ?_, ?_, ?_, ?_, ?_, ?_, ?_, ?_, ?_, ?_, ?_⟩
  · rw [e0]
  · rw [e0]
  · rw [e0]
  · rw [e1]
  · rw [e1]
  · rw [e1]
  · rw [e2]
  · rw [e2]
  · rw [e2]
  · rw [e3]
  · rw [e3]
  · rw [e3]
  · intro s h1 h2 h3
    unfold App.phaseEnd
    rw [if_neg (by simp [h2]), if_pos h1, if_pos h3]
    exact ⟨rfl, by simp, rfl⟩

/-- Witness for C3: the claim's quantified last-cycle part at a concrete
work-end state on the final cycle. -/
theorem session_arithmetic_25_5_2_witness :
    (App.phaseEnd
        { phase := SessionPhase.work, currentCycle := 2, cycles := 2,
          workMinutes := 25, breakMinutes := 5, timeRemainingMs := 0,
          isPlaying := true, showSessionComplete := false,
          sessionTimerEnabled := true }).phase = SessionPhase.idle :=
  (session_arithmetic_25_5_2.2.2.2.2.2.2.2.2.2.2.2.2
    { phase := SessionPhase.work, currentCycle := 2, cycles := 2,
      workMinutes := 25, breakMinutes := 5, timeRemainingMs := 0,
      isPlaying := true, showSessionComplete := false,
      sessionTimerEnabled := true } rfl rfl (by norm_num)).1

/-- Counterexample for C5: with a 1-minute work phase, a 0-minute break
and 2 cycles, the break→work transition raises `currentCycle` to 2; the
user's manual stop (a toggle issued while playing) then sets the phase to
`idle` but leaves `currentCycle` at 2, not 1 — the claimed reset of
`currentCycle` to 1 on manual stop does not happen.  Lowering the cycle
count to 1 afterwards (the input is enabled again once idle) then leaves
`currentCycle = 2 > totalCycles = 1`, breaking the claimed global
invariant. -/
theorem manual_stop_keeps_cycle_counterexample :
    (App.run appInitial
        ([AppAction.setWorkMinutes 1, AppAction.setBreakMinutes 0,
          AppAction.toggle] ++ List.replicate 600 AppAction.tick ++
          [AppAction.phaseEnd, AppAction.phaseEnd])).isPlaying = true ∧
      (App.run appInitial
          ([AppAction.setWorkMinutes 1, AppAction.setBreakMinutes 0,
            AppAction.toggle] ++ List.replicate 600 AppAction.tick ++
            [AppAction.phaseEnd, AppAction.phaseEnd,
              AppAction.toggle])).phase = SessionPhase.idle ∧
      (App.run appInitial
          ([AppAction.setWorkMinutes 1, AppAction.setBreakMinutes 0,
            AppAction.toggle] ++ List.replicate 600 AppAction.tick ++
            [AppAction.phaseEnd, AppAction.phaseEnd,
              AppAction.toggle])).isPlaying = false ∧
      (App.run appInitial
          ([AppAction.setWorkMinutes 1, AppAction.setBreakMinutes 0,
            AppAction.toggle] ++ List.replicate 600 AppAction.tick ++
            [AppAction.phaseEnd, AppAction.phaseEnd,
              AppAction.toggle])).currentCycle = 2 ∧
      (App.run appInitial
          ([AppAction.setWorkMinutes 1, AppAction.setBreakMinutes 0,
            AppAction.toggle] ++ List.replicate 600 AppAction.tick ++
            [AppAction.phaseEnd, AppAction.phaseEnd, AppAction.toggle,
              AppAction.setCycles 1])).currentCycle = 2 ∧
      (App.run appInitial
          ([AppAction.setWorkMinutes 1, AppAction.setBreakMinutes 0,
            AppAction.toggle] ++ List.replicate 600 AppAction.tick ++
            [AppAction.phaseEnd, AppAction.phaseEnd, AppAction.toggle,
              AppAction.setCycles 1])).cycles = 1 := by
  have eA : App.run appInitial
      [AppAction.setWorkMinutes 1, AppAction.setBreakMinutes 0,
        AppAction.toggle] =
      { phase := SessionPhase.work, currentCycle := 1, cycles := 2,
        workMinutes := 1, breakMinutes := 0, timeRemainingMs := 60000,
        isPlaying := true, showSessionComplete := false,
        sessionTimerEnabled := true } := by decide
  have eT : App.run appInitial
      ([AppAction.setWorkMinutes 1, AppAction.setBreakMinutes 0,
        AppAction.toggle] ++ List.replicate 600 AppAction.tick) =
      { phase := SessionPhase.work, currentCycle := 1, cycles := 2,
        workMinutes := 1, breakMinutes := 0, timeRemainingMs := 0,
        isPlaying := true, showSessionComplete := false,
        sessionTimerEnabled := true } := by
    rw [run_append, eA, run_replicate_tick 600 _ (Or.inl rfl)]
    decide
  refine ⟨?_, ?_, ?_, ?_, ?_, ?_⟩ <;> rw [run_append, eT] <;> decide

/-- One App event preserves the in-session cycle bound. -/
theorem cycle_le_cycles_step (s : AppState) (a : AppAction)
    (h : s.phase ≠ SessionPhase.idle → s.currentCycle ≤ s.cycles) :
    (App.step s a).phase ≠ SessionPhase.idle →
      (App.step s a).currentCycle ≤ (App.step s a).cycles := by
  cases a with
  | toggle =>
    simp only [App.step, App.handleToggle]
    split_ifs with h1 h2
    · exact fun hph => absurd rfl hph
    · exact fun _ => h2.2.1
    · exact h
  | tick =>
    simp only [App.step]
    split_ifs with h1
    · exact fun hph => h hph
    · exact h
  | phaseEnd =>
    simp only [App.step, App.phaseEnd]
    split_ifs with h1 h2 h3 h4 h5
    · exact h
    · exact fun hph => absurd rfl hph
    · exact fun _ => h (by simp [h2])
    · exact fun hph => absurd rfl hph
    · exact fun _ => not_le.mp h5
    · exact h
  | setCycles v =>
    simp only [App.step]
    split_ifs with h1
    · exact fun hph => absurd h1 hph
    · exact h
  | setWorkMinutes v =>
    simp only [App.step]
    split_ifs with h1
    · exact fun hph => absurd h1 hph
    · exact h
  | setBreakMinutes v =>
    simp only [App.step]
    split_ifs with h1
    · exact fun hph => absurd h1 hph
    · exact h

/-- The in-session cycle bound holds along any run that starts in a state
satisfying it. -/
theorem cycle_le_cycles_run (acts : List AppAction) :
    ∀ s : AppState, (s.phase ≠ SessionPhase.idle → s.currentCycle ≤ s.cycles) →
      ((App.run s acts).phase ≠ SessionPhase.idle →
        (App.run s acts).currentCycle ≤ (App.run s acts).cycles) := by
  induction acts with
  | nil =>
    intro s h
    exact h
  | cons a rest ih =>
    intro s h
    rw [App.run]
    exact ih _ (cycle_le_cycles_step s a h)

/-- Claim C5 as amended: a manual stop and a last-work-phase end both
reset the phase to `idle` but leave `currentCycle` unchanged (it is reset
to 1 only when a new session starts), and the bound
`currentCycle ≤ totalCycles` holds in every reachable state whose phase is
not `idle` (while idle the counterexample trace violates it). -/
theorem session_reset_amended :
    (∀ s : AppState, s.isPlaying = true →
      (App.handleToggle s).phase = SessionPhase.idle ∧
        (App.handleToggle s).isPlaying = false ∧
        (App.handleToggle s).currentCycle = s.currentCycle) ∧
      (∀ s : AppState, s.phase = SessionPhase.work → s.timeRemainingMs = 0 →
        s.cycles ≤ s.currentCycle →
        (App.phaseEnd s).phase = SessionPhase.idle ∧
          (App.phaseEnd s).currentCycle = s.currentCycle) ∧
      (∀ s : AppState, s.isPlaying = false → s.sessionTimerEnabled = true →
        1 ≤ s.cycles → 1 ≤ s.workMinutes →
        (App.handleToggle s).currentCycle = 1) ∧
      (∀ acts : List AppAction,
        (App.run appInitial acts).phase ≠ SessionPhase.idle →
          (App.run appInitial acts).currentCycle ≤
            (App.run appInitial acts).cycles) := by
  refine ⟨?_, ?_, ?_, ?_⟩
  · intro s hp
    unfold App.handleToggle
    rw [if_pos hp]
    exact ⟨rfl, rfl, rfl⟩
  · intro s h1 h2 h3
    unfold App.phaseEnd
    rw [if_neg (by simp [h2]), if_pos h1, if_pos h3]
    exact ⟨rfl, rfl⟩
  · intro s hp ht hc hw
    unfold App.handleToggle
    rw [if_neg (by simp [hp]), if_pos ⟨ht, hc, hw⟩]
  · intro acts
    exact cycle_le_cycles_run acts appInitial (fun hph => absurd rfl hph)

/-- Witness for C5's amended statement: stopping from a concrete playing
state at cycle 2 of 2 yields phase `idle` with the cycle untouched. -/
theorem session_reset_amended_witness :
    (App.handleToggle
        { phase := SessionPhase.work, currentCycle := 2, cycles := 2,
          workMinutes := 25, breakMinutes := 5, timeRemainingMs := 700,
          isPlaying := true, showSessionComplete := false,
          sessionTimerEnabled := true }).phase = SessionPhase.idle ∧
      (App.handleToggle
          { phase := SessionPhase.work, currentCycle := 2, cycles := 2,
            workMinutes := 25, breakMinutes := 5, timeRemainingMs := 700,
            isPlaying := true, showSessionComplete := false,
            sessionTimerEnabled := true }).currentCycle = 2 :=
  ⟨(session_reset_amended.1
      { phase := SessionPhase.work, currentCycle := 2, cycles := 2,
        workMinutes := 25, breakMinutes := 5, timeRemainingMs := 700,
        isPlaying := true, showSessionComplete := false,
        sessionTimerEnabled := true } rfl).1,
    (session_reset_amended.1
      { phase := SessionPhase.work, currentCycle := 2, cycles := 2,
        workMinutes := 25, breakMinutes := 5, timeRemainingMs := 700,
        isPlaying := true, showSessionComplete := false,
        sessionTimerEnabled := true } rfl).2.2⟩

/-- Claim C1: in every schedule in which the user's stop toggle overlaps
an in-flight break→work auto-restart, the final state has the engine
stopped (`enginePlaying = false`, no live generator nodes), the UI
playing flag cleared and the phase `idle` — audio is never left playing
after the user's stop — and the toggle indeed takes its stop branch
(engine playing when it begins); moreover the transition's resume step
respects the cancellation token: once `cancelled` is set it changes
nothing, in particular it never sets the playing state. -/
theorem stop_during_break_work_restart_safe :
    (∀ sch ∈ stopDuringRestartSchedules,
      (raceRun raceStart sch).enginePlaying = false ∧
        (raceRun raceStart sch).nodesLive = false ∧
        (raceRun raceStart sch).uiPlaying = false ∧
        (raceRun raceStart sch).phase = SessionPhase.idle ∧
        (raceRun raceStart sch).timersActive = false) ∧
      (∀ sch ∈ stopDuringRestartSchedules, ∀ i : Fin sch.length,
        sch.get i = RaceStep.toggleFadeBegin →
          (raceRun raceStart (sch.take i.val)).enginePlaying = true) ∧
      (∀ s : RaceState, s.cancelled = true →
        raceStep s RaceStep.restartResume = s) := by
  refine ⟨by decide, by decide, ?_⟩
  intro s hc
  simp [raceStep, hc]

/-- Witness for C1 at the schedule where the React cleanup lands between
the two toggle segments. -/
theorem stop_during_break_work_restart_safe_witness :
    [RaceStep.restartBody, RaceStep.restartResume, RaceStep.toggleFadeBegin,
        RaceStep.cleanupCommit, RaceStep.toggleFadeDone] ∈
        stopDuringRestartSchedules ∧
      (raceRun raceStart
          [RaceStep.restartBody, RaceStep.restartResume,
            RaceStep.toggleFadeBegin, RaceStep.cleanupCommit,
            RaceStep.toggleFadeDone]).enginePlaying = false ∧
      (raceRun raceStart
          [RaceStep.restartBody, RaceStep.restartResume,
            RaceStep.toggleFadeBegin, RaceStep.cleanupCommit,
            RaceStep.toggleFadeDone]).phase = SessionPhase.idle :=
  ⟨by decide,
    (stop_during_break_work_restart_safe.1
      [RaceStep.restartBody, RaceStep.restartResume, RaceStep.toggleFadeBegin,
        RaceStep.cleanupCommit, RaceStep.toggleFadeDone] (by decide)).1,
    (stop_during_break_work_restart_safe.1
      [RaceStep.restartBody, RaceStep.restartResume, RaceStep.toggleFadeBegin,
        RaceStep.cleanupCommit, RaceStep.toggleFadeDone] (by decide)).2.2.2.1⟩

end Neuraldrift
